import Mathlib

/-!
Verification of the frame-analysis and deduplication pipeline of `scan5.0/main.py`.

The embedding models times and durations as integers (Python `datetime` /
`timedelta` arithmetic), pixel coordinates as integers, and contour areas as
rationals (`cv2.contourArea` returns an exact multiple of 1/2 for integer
contours).  A contour is abstracted by the values OpenCV computes from it:
its area (`cv2.contourArea`) and its bounding rectangle (`cv2.boundingRect`).
Masks are modelled as pixel-indexed grids of intensities.
-/

namespace Scan

/-- A detection record as stored in `object_history`: the Python tuple
`(timestamp, x, y, w, h)` appended at `main.py` line 118. -/
structure DetectionRecord where
  timestamp : Int
  x : Int
  y : Int
  w : Int
  h : Int
deriving DecidableEq, Repr

/-- An extracted contour, abstracted by the values `process_frame` reads from
it: `cv2.contourArea` and the `cv2.boundingRect` fields `x, y, w, h`. -/
structure Contour where
  area : ℚ
  x : Int
  y : Int
  w : Int
  h : Int
deriving DecidableEq, Repr

/-- `is_new_object` (`main.py` lines 83-92): scan the history; skip records
older than `history_duration`; return `False` on the first record whose top-left
corner is within 50 pixels of `(x, y)` on both axes; otherwise return `True`. -/
def is_new_object (x y : Int) (current_time : Int)
    (object_history : List DetectionRecord) (history_duration : Int) : Bool :=
  match object_history with
  | [] => true
  | r :: rest =>
      if current_time - r.timestamp > history_duration then
        is_new_object x y current_time rest history_duration
      else if |x - r.x| < 50 ∧ |y - r.y| < 50 then
        false
      else
        is_new_object x y current_time rest history_duration

lemma is_new_object_nil (x y t hd : Int) : is_new_object x y t [] hd = true := rfl

lemma is_new_object_false_iff (x y t hd : Int) :
    ∀ h : List DetectionRecord,
      is_new_object x y t h hd = false ↔
        ∃ r ∈ h, t - r.timestamp ≤ hd ∧ |x - r.x| < 50 ∧ |y - r.y| < 50 := by
  intro h
  induction h with
  | nil => simp [is_new_object]
  | cons r rest ih =>
      rw [is_new_object]
      by_cases hage : t - r.timestamp > hd
      · rw [if_pos hage, ih]
        constructor
        · rintro ⟨s, hs, h1, h2, h3⟩
          exact ⟨s, List.mem_cons_of_mem _ hs, h1, h2, h3⟩
        · rintro ⟨s, hs, h1, h2, h3⟩
          rcases List.mem_cons.mp hs with rfl | hs
          · omega
          · exact ⟨s, hs, h1, h2, h3⟩
      · rw [if_neg hage]
        by_cases hclose : |x - r.x| < 50 ∧ |y - r.y| < 50
        · rw [if_pos hclose]
          constructor
          · intro _
            exact ⟨r, List.mem_cons_self _ _, by omega, hclose.1, hclose.2⟩
          · intro _
            rfl
        · rw [if_neg hclose, ih]
          constructor
          · rintro ⟨s, hs, h1, h2, h3⟩
            exact ⟨s, List.mem_cons_of_mem _ hs, h1, h2, h3⟩
          · rintro ⟨s, hs, h1, h2, h3⟩
            rcases List.mem_cons.mp hs with rfl | hs
            · exact absurd ⟨h2, h3⟩ hclose
            · exact ⟨s, hs, h1, h2, h3⟩

lemma is_new_object_true_iff (x y t hd : Int) (h : List DetectionRecord) :
    is_new_object x y t h hd = true ↔
      ∀ r ∈ h, t - r.timestamp ≤ hd → ¬(|x - r.x| < 50 ∧ |y - r.y| < 50) := by
  constructor
  · intro htrue r hr hrec hclose
    have hfalse : is_new_object x y t h hd = false :=
      (is_new_object_false_iff x y t hd h).mpr ⟨r, hr, hrec, hclose.1, hclose.2⟩
    rw [htrue] at hfalse
    exact Bool.noConfusion hfalse
  · intro hall
    cases hval : is_new_object x y t h hd with
    | true => rfl
    | false =>
        obtain ⟨r, hr, h1, h2, h3⟩ := (is_new_object_false_iff x y t hd h).mp hval
        exact absurd ⟨h2, h3⟩ (hall r hr h1)

/-- C1: `is_new_object` returns `false` iff some history record has age
`now - record.timestamp ≤ historyDuration` and both coordinate deltas from the
candidate's top-left corner are strictly below the hard-coded proximity
threshold 50; records strictly older than the window never trigger the
comparison.  (The check is read-only: in the embedding `is_new_object` returns
only a `Bool`, mirroring that the Python function never writes to the list.) -/
theorem isNew_semantics (x y t hd : Int) (h : List DetectionRecord) :
    is_new_object x y t h hd = false ↔
      ∃ r ∈ h, t - r.timestamp ≤ hd ∧ |x - r.x| < 50 ∧ |y - r.y| < 50 :=
  is_new_object_false_iff x y t hd h

/-- One iteration of the contour loop of `process_frame` (`main.py` lines
106-123): the area filter `25 <= cv2.contourArea(contour) < 500` (line 108),
the bounding box, the `is_new_object` check, and — on acceptance — the append
of `(current_time, x, y, w, h)` followed by the in-place prune keeping exactly
the records with `current_time - obj[0] <= history_duration` (lines 118-122).
Returns the detection reported by this iteration (if any) and the history
after the iteration.  `current_time` is the `datetime.now()` reading taken at
line 113 for this contour. -/
def stepCandidate (c : Contour) (current_time : Int)
    (object_history : List DetectionRecord) (history_duration : Int) :
    Option (Int × Int × Int × Int) × List DetectionRecord :=
  if ¬(25 ≤ c.area ∧ c.area < 500) then
    (none, object_history)
  else if is_new_object c.x c.y current_time object_history history_duration then
    (some (c.x, c.y, c.w, c.h),
     (object_history ++ [(⟨current_time, c.x, c.y, c.w, c.h⟩ : DetectionRecord)]).filter
       (fun r => decide (current_time - r.timestamp ≤ history_duration)))
  else
    (none, object_history)

/-- The whole contour loop of `process_frame` (`main.py` lines 104-125): each
contour is paired with the `datetime.now()` reading `process_frame` would take
for it; the loop threads `object_history` through the iterations and collects
`new_objects` in order.  Returns `(new_objects, final object_history)`. -/
def processContours :
    List (Contour × Int) → List DetectionRecord → Int →
      List (Int × Int × Int × Int) × List DetectionRecord
  | [], object_history, _ => ([], object_history)
  | (c, t) :: rest, object_history, history_duration =>
      match stepCandidate c t object_history history_duration with
      | (none, h1) => processContours rest h1 history_duration
      | (some b, h1) =>
          let r := processContours rest h1 history_duration
          (b :: r.1, r.2)

lemma stepCandidate_area_fail (c : Contour) (t hd : Int) (h : List DetectionRecord)
    (hc : ¬(25 ≤ c.area ∧ c.area < 500)) :
    stepCandidate c t h hd = (none, h) := by
  rw [stepCandidate, if_pos hc]

lemma stepCandidate_not_new (c : Contour) (t hd : Int) (h : List DetectionRecord)
    (hc : 25 ≤ c.area ∧ c.area < 500)
    (hnew : is_new_object c.x c.y t h hd = false) :
    stepCandidate c t h hd = (none, h) := by
  rw [stepCandidate, if_neg (not_not_intro hc), hnew]
  simp

lemma stepCandidate_accept (c : Contour) (t hd : Int) (h : List DetectionRecord)
    (hc : 25 ≤ c.area ∧ c.area < 500)
    (hnew : is_new_object c.x c.y t h hd = true) :
    stepCandidate c t h hd =
      (some (c.x, c.y, c.w, c.h),
       (h ++ [(⟨t, c.x, c.y, c.w, c.h⟩ : DetectionRecord)]).filter
         (fun r => decide (t - r.timestamp ≤ hd))) := by
  rw [stepCandidate, if_neg (not_not_intro hc), hnew]
  simp

lemma processContours_nil (h : List DetectionRecord) (hd : Int) :
    processContours [] h hd = ([], h) := rfl

lemma processContours_cons_skip (c : Contour) (t : Int) (rest : List (Contour × Int))
    (h : List DetectionRecord) (hd : Int)
    (hstep : stepCandidate c t h hd = (none, h)) :
    processContours ((c, t) :: rest) h hd = processContours rest h hd := by
  rw [processContours, hstep]

lemma processContours_cons_accept (c : Contour) (t : Int) (rest : List (Contour × Int))
    (h h1 : List DetectionRecord) (hd : Int)
    (hstep : stepCandidate c t h hd = (some (c.x, c.y, c.w, c.h), h1)) :
    processContours ((c, t) :: rest) h hd =
      ((c.x, c.y, c.w, c.h) :: (processContours rest h1 hd).1,
       (processContours rest h1 hd).2) := by
  rw [processContours, hstep]

/-- C2: when a candidate passes the area filter and `is_new_object` returns
true, the history after the iteration is the old history with the record
`(now, x, y, w, h)` appended and then every record of age `> historyDuration`
removed by a `filter`, which keeps the surviving records in insertion order;
in every other case the iteration leaves the history exactly unchanged, so
this acceptance step is the only point at which records are removed. -/
theorem accept_updates_history (c : Contour) (t hd : Int) (h : List DetectionRecord) :
    ((25 ≤ c.area ∧ c.area < 500) → is_new_object c.x c.y t h hd = true →
      stepCandidate c t h hd =
        (some (c.x, c.y, c.w, c.h),
         (h ++ [(⟨t, c.x, c.y, c.w, c.h⟩ : DetectionRecord)]).filter
           (fun r => decide (t - r.timestamp ≤ hd)))) ∧
    ((¬(25 ≤ c.area ∧ c.area < 500) ∨ is_new_object c.x c.y t h hd = false) →
      (stepCandidate c t h hd).2 = h) := by
  constructor
  · intro hc hnew
    exact stepCandidate_accept c t hd h hc hnew
  · intro hrej
    rcases hrej with hc | hnew
    · rw [stepCandidate_area_fail c t hd h hc]
    · by_cases hc : 25 ≤ c.area ∧ c.area < 500
      · rw [stepCandidate_not_new c t hd h hc hnew]
      · rw [stepCandidate_area_fail c t hd h hc]

/-- Witness for C2 at a concrete accepted candidate. -/
theorem accept_updates_history_witness :
    stepCandidate ⟨30, 7, 8, 2, 3⟩ 0 [] 300 =
      (some (7, 8, 2, 3),
       (([] : List Scan.DetectionRecord) ++ [(⟨0, 7, 8, 2, 3⟩ : Scan.DetectionRecord)]).filter
         (fun r => decide ((0 : Int) - r.timestamp ≤ 300))) :=
  (accept_updates_history ⟨30, 7, 8, 2, 3⟩ 0 300 []).1 (by norm_num) rfl

/-- C4: a contour proceeds past the area filter iff `25 ≤ area < 500`
(`minArea = 25` included, `maxArea = 500` excluded); outside that range the
iteration produces no detection and no history change, and inside it the
iteration is exactly the novelty evaluation. -/
theorem area_filter_boundary (c : Contour) (t hd : Int) (h : List DetectionRecord) :
    (¬(25 ≤ c.area ∧ c.area < 500) → stepCandidate c t h hd = (none, h)) ∧
    ((25 ≤ c.area ∧ c.area < 500) →
      stepCandidate c t h hd =
        if is_new_object c.x c.y t h hd then
          (some (c.x, c.y, c.w, c.h),
           (h ++ [(⟨t, c.x, c.y, c.w, c.h⟩ : DetectionRecord)]).filter
             (fun r => decide (t - r.timestamp ≤ hd)))
        else (none, h)) := by
  constructor
  · intro hc
    exact stepCandidate_area_fail c t hd h hc
  · intro hc
    cases hnew : is_new_object c.x c.y t h hd with
    | true =>
        rw [stepCandidate_accept c t hd h hc hnew]
        simp
    | false =>
        rw [stepCandidate_not_new c t hd h hc hnew]
        simp

/-- Witness for C4 at both boundaries: area 500 is rejected with history
untouched, area 25 is admitted to the novelty check. -/
theorem area_filter_boundary_witness :
    stepCandidate ⟨500, 0, 0, 1, 1⟩ 0 [] 300 = (none, []) ∧
    stepCandidate ⟨25, 0, 0, 1, 1⟩ 0 [] 300 =
      (if is_new_object 0 0 0 [] 300 then
        (some (0, 0, 1, 1),
         (([] : List Scan.DetectionRecord) ++ [(⟨0, 0, 0, 1, 1⟩ : Scan.DetectionRecord)]).filter
           (fun r => decide ((0 : Int) - r.timestamp ≤ 300)))
      else (none, [])) :=
  ⟨(area_filter_boundary ⟨500, 0, 0, 1, 1⟩ 0 300 []).1 (by norm_num),
   (area_filter_boundary ⟨25, 0, 0, 1, 1⟩ 0 300 []).2 (by norm_num)⟩

/-- C6: a tick in which every contour fails the area filter — in particular a
tick with no contours at all, as on a frame whose combined mask has zero
foreground pixels — reports no objects and leaves the history exactly
unchanged. -/
theorem empty_tick_noop (cs : List (Contour × Int)) (h : List DetectionRecord) (hd : Int)
    (hcs : ∀ p ∈ cs, ¬(25 ≤ p.1.area ∧ p.1.area < 500)) :
    processContours cs h hd = ([], h) := by
  induction cs with
  | nil => rfl
  | cons p rest ih =>
      obtain ⟨c, t⟩ := p
      rw [processContours_cons_skip c t rest h hd
          (stepCandidate_area_fail c t hd h (hcs (c, t) (List.mem_cons_self _ _)))]
      exact ih fun q hq => hcs q (List.mem_cons_of_mem _ hq)

/-- Witness for C6: a tick holding only an oversized contour is a no-op. -/
theorem empty_tick_noop_witness :
    processContours [(⟨600, 0, 0, 4, 4⟩, 0)] [(⟨0, 9, 9, 1, 1⟩ : DetectionRecord)] 300 =
      ([], [(⟨0, 9, 9, 1, 1⟩ : DetectionRecord)]) :=
  empty_tick_noop [(⟨600, 0, 0, 4, 4⟩, 0)] [(⟨0, 9, 9, 1, 1⟩ : DetectionRecord)] 300 (by norm_num)

lemma processContours_single_accept (c : Contour) (t hd : Int)
    (hc : 25 ≤ c.area ∧ c.area < 500) (hhd : 0 ≤ hd) :
    processContours [(c, t)] [] hd =
      ([(c.x, c.y, c.w, c.h)], [(⟨t, c.x, c.y, c.w, c.h⟩ : DetectionRecord)]) := by
  have hstep : stepCandidate c t [] hd =
      (some (c.x, c.y, c.w, c.h), [(⟨t, c.x, c.y, c.w, c.h⟩ : DetectionRecord)]) := by
    rw [stepCandidate_accept c t hd [] hc (is_new_object_nil c.x c.y t hd)]
    have ht : t - t ≤ hd := by omega
    simp [List.filter_cons, ht]
    omega
  rw [processContours_cons_accept c t [] []
        [(⟨t, c.x, c.y, c.w, c.h⟩ : DetectionRecord)] hd hstep, processContours_nil]

/-- C3: after a first candidate is accepted from an empty history at time
`t1`, a second candidate within 50 pixels of it on both axes and processed at
`t2` with `t2 - t1 ≤ historyDuration` is not reported (the tick is a no-op);
while with `t2 - t1 > historyDuration` the second candidate is reported as
new, even at identical coordinates. -/
theorem dedup_window (c1 c2 : Contour) (t1 t2 hd : Int)
    (ha1 : 25 ≤ c1.area ∧ c1.area < 500) (ha2 : 25 ≤ c2.area ∧ c2.area < 500)
    (hhd : 0 ≤ hd) :
    (t2 - t1 ≤ hd → |c2.x - c1.x| < 50 → |c2.y - c1.y| < 50 →
      processContours [(c2, t2)] (processContours [(c1, t1)] [] hd).2 hd =
        ([], (processContours [(c1, t1)] [] hd).2)) ∧
    (hd < t2 - t1 →
      (processContours [(c2, t2)] (processContours [(c1, t1)] [] hd).2 hd).1 =
        [(c2.x, c2.y, c2.w, c2.h)]) := by
  have h1eq : (processContours [(c1, t1)] [] hd).2 =
      [(⟨t1, c1.x, c1.y, c1.w, c1.h⟩ : DetectionRecord)] := by
    rw [processContours_single_accept c1 t1 hd ha1 hhd]
  constructor
  · intro hwin hdx hdy
    have hnew : is_new_object c2.x c2.y t2
        [(⟨t1, c1.x, c1.y, c1.w, c1.h⟩ : DetectionRecord)] hd = false :=
      (is_new_object_false_iff _ _ _ _ _).mpr
        ⟨⟨t1, c1.x, c1.y, c1.w, c1.h⟩, List.mem_singleton_self _, hwin, hdx, hdy⟩
    rw [h1eq, processContours_cons_skip c2 t2 [] _ hd
          (stepCandidate_not_new c2 t2 hd _ ha2 hnew), processContours_nil]
  · intro hout
    have hnew : is_new_object c2.x c2.y t2
        [(⟨t1, c1.x, c1.y, c1.w, c1.h⟩ : DetectionRecord)] hd = true := by
      apply (is_new_object_true_iff _ _ _ _ _).mpr
      intro r hr hrec
      rcases List.mem_singleton.mp hr with rfl
      exact absurd hrec (by simp; omega)
    rw [h1eq, processContours_cons_accept c2 t2 [] _ _ hd
          (stepCandidate_accept c2 t2 hd _ ha2 hnew), processContours_nil]

/-- Witness for C3 at the concrete scenario of the spec (times in seconds,
`historyDuration` = 300 s): a duplicate 120 s later is dropped, an identical
candidate 360 s later is reported again. -/
theorem dedup_window_witness :
    (processContours [((⟨30, 100, 100, 10, 10⟩ : Contour), 120)]
        (processContours [((⟨30, 100, 100, 10, 10⟩ : Contour), 0)] [] 300).2 300 =
      ([], (processContours [((⟨30, 100, 100, 10, 10⟩ : Contour), 0)] [] 300).2)) ∧
    ((processContours [((⟨30, 100, 100, 10, 10⟩ : Contour), 360)]
        (processContours [((⟨30, 100, 100, 10, 10⟩ : Contour), 0)] [] 300).2 300).1 =
      [(100, 100, 10, 10)]) :=
  ⟨(dedup_window ⟨30, 100, 100, 10, 10⟩ ⟨30, 100, 100, 10, 10⟩ 0 120 300
      (by norm_num) (by norm_num) (by norm_num)).1 (by norm_num) (by norm_num) (by norm_num),
   (dedup_window ⟨30, 100, 100, 10, 10⟩ ⟨30, 100, 100, 10, 10⟩ 0 360 300
      (by norm_num) (by norm_num) (by norm_num)).2 (by norm_num)⟩

/-- C5: two candidates of the same tick, separated by at least 50 pixels on
some axis, are both reported as new when the history holds no window-aged
record near either of them. -/
theorem separated_both_new (c1 c2 : Contour) (t hd : Int) (h : List DetectionRecord)
    (ha1 : 25 ≤ c1.area ∧ c1.area < 500) (ha2 : 25 ≤ c2.area ∧ c2.area < 500)
    (hfar : 50 ≤ |c2.x - c1.x| ∨ 50 ≤ |c2.y - c1.y|)
    (hh1 : ∀ r ∈ h, t - r.timestamp ≤ hd → ¬(|c1.x - r.x| < 50 ∧ |c1.y - r.y| < 50))
    (hh2 : ∀ r ∈ h, t - r.timestamp ≤ hd → ¬(|c2.x - r.x| < 50 ∧ |c2.y - r.y| < 50)) :
    (processContours [(c1, t), (c2, t)] h hd).1 =
      [(c1.x, c1.y, c1.w, c1.h), (c2.x, c2.y, c2.w, c2.h)] := by
  have hnew1 : is_new_object c1.x c1.y t h hd = true :=
    (is_new_object_true_iff _ _ _ _ _).mpr hh1
  have hnew2 : is_new_object c2.x c2.y t
      ((h ++ [(⟨t, c1.x, c1.y, c1.w, c1.h⟩ : DetectionRecord)]).filter
        (fun r => decide (t - r.timestamp ≤ hd))) hd = true := by
    apply (is_new_object_true_iff _ _ _ _ _).mpr
    intro r hr hrec
    have hmem : r ∈ h ++ [(⟨t, c1.x, c1.y, c1.w, c1.h⟩ : DetectionRecord)] :=
      List.mem_of_mem_filter hr
    rcases List.mem_append.mp hmem with hrh | hrone
    · exact hh2 r hrh hrec
    · have hone : r = ⟨t, c1.x, c1.y, c1.w, c1.h⟩ := List.mem_singleton.mp hrone
      subst hone
      rintro ⟨hx, hy⟩
      rcases hfar with hf | hf
      · exact absurd hx (not_lt.mpr hf)
      · exact absurd hy (not_lt.mpr hf)
  rw [processContours_cons_accept c1 t [(c2, t)] h _ hd
        (stepCandidate_accept c1 t hd h ha1 hnew1),
      processContours_cons_accept c2 t [] _ _ hd
        (stepCandidate_accept c2 t hd _ ha2 hnew2), processContours_nil]

/-- Witness for C5: two far-apart candidates of one tick against an empty
history are both reported. -/
theorem separated_both_new_witness :
    (processContours [((⟨30, 100, 100, 10, 10⟩ : Contour), 0),
        ((⟨40, 200, 100, 8, 8⟩ : Contour), 0)] [] 300).1 =
      [(100, 100, 10, 10), (200, 100, 8, 8)] :=
  separated_both_new ⟨30, 100, 100, 10, 10⟩ ⟨40, 200, 100, 8, 8⟩ 0 300 []
    (by norm_num) (by norm_num) (by norm_num)
    (by intro r hr; simp at hr) (by intro r hr; simp at hr)

lemma near_record_suppresses (x0 y0 t hd : Int) (cs : List Contour) :
    ∀ h : List DetectionRecord,
      (∃ r ∈ h, r.x = x0 ∧ r.y = y0 ∧ t - r.timestamp ≤ hd) →
      ∀ b ∈ (processContours (cs.map (fun c => (c, t))) h hd).1,
        ¬(|b.1 - x0| < 50 ∧ |b.2.1 - y0| < 50) := by
  induction cs with
  | nil =>
      intro h hinv b hb
      simp [processContours] at hb
  | cons c cs ih =>
      intro h hinv b hb
      obtain ⟨r0, hr0, hr0x, hr0y, hr0t⟩ := hinv
      by_cases hc : 25 ≤ c.area ∧ c.area < 500
      · cases hnew : is_new_object c.x c.y t h hd with
        | false =>
            rw [List.map_cons, processContours_cons_skip c t _ h hd
                  (stepCandidate_not_new c t hd h hc hnew)] at hb
            exact ih h ⟨r0, hr0, hr0x, hr0y, hr0t⟩ b hb
        | true =>
            rw [List.map_cons, processContours_cons_accept c t _ h _ hd
                  (stepCandidate_accept c t hd h hc hnew)] at hb
            rcases List.mem_cons.mp hb with rfl | hb2
            · have hfar := (is_new_object_true_iff c.x c.y t hd h).mp hnew r0 hr0 hr0t
              simpa [hr0x, hr0y] using hfar
            · apply ih ((h ++ [(⟨t, c.x, c.y, c.w, c.h⟩ : DetectionRecord)]).filter
                  (fun r => decide (t - r.timestamp ≤ hd))) _ b hb2
              refine ⟨r0, ?_, hr0x, hr0y, hr0t⟩
              exact List.mem_filter.mpr
                ⟨List.mem_append_left _ hr0, by simpa using hr0t⟩
      · rw [List.map_cons, processContours_cons_skip c t _ h hd
              (stepCandidate_area_fail c t hd h hc)] at hb
        exact ih h ⟨r0, hr0, hr0x, hr0y, hr0t⟩ b hb

/-- C10: inside one tick, an accepted candidate is appended to the history
before the remaining contours are evaluated, so every further detection
reported in the same tick is at least 50 pixels away on some axis from the
accepted candidate — a later nearby simultaneous candidate is suppressed. -/
theorem within_tick_suppression (c1 : Contour) (cs : List Contour) (t hd : Int)
    (h : List DetectionRecord) (hhd : 0 ≤ hd)
    (ha : 25 ≤ c1.area ∧ c1.area < 500)
    (hnew : is_new_object c1.x c1.y t h hd = true) :
    ∃ rest,
      (processContours ((c1, t) :: cs.map (fun c => (c, t))) h hd).1 =
        (c1.x, c1.y, c1.w, c1.h) :: rest ∧
      ∀ b ∈ rest, ¬(|b.1 - c1.x| < 50 ∧ |b.2.1 - c1.y| < 50) := by
  rw [processContours_cons_accept c1 t _ h _ hd
        (stepCandidate_accept c1 t hd h ha hnew)]
  refine ⟨_, rfl, ?_⟩
  apply near_record_suppresses c1.x c1.y t hd cs _
  refine ⟨⟨t, c1.x, c1.y, c1.w, c1.h⟩, ?_, rfl, rfl, by show t - t ≤ hd; omega⟩
  exact List.mem_filter.mpr
    ⟨List.mem_append_right _ (List.mem_singleton_self _), by simp; omega⟩

/-- Witness for C10: a second candidate 20 pixels away in the same tick is
suppressed after the first is accepted. -/
theorem within_tick_suppression_witness :
    ∃ rest,
      (processContours (((⟨30, 100, 100, 10, 10⟩ : Contour), (0 : Int)) ::
          [(⟨30, 120, 110, 9, 9⟩ : Contour)].map (fun c => (c, (0 : Int)))) [] 300).1 =
        ((100 : Int), (100 : Int), (10 : Int), (10 : Int)) :: rest ∧
      ∀ b ∈ rest, ¬(|b.1 - (100 : Int)| < 50 ∧ |b.2.1 - (100 : Int)| < 50) :=
  within_tick_suppression ⟨30, 100, 100, 10, 10⟩ [⟨30, 120, 110, 9, 9⟩] 0 300 []
    (by norm_num) (by norm_num) rfl

/-- A mask in `process_frame` is a grid of 8-bit intensities, indexed by pixel
coordinates. -/
abbrev Mask := Nat × Nat → Nat

/-- `cv2.inRange` applied to the HSV-converted frame (`main.py` line 98):
255 at pixels whose three channels all lie in `[lower, upper]`, 0 elsewhere. -/
def inRange (hsv : Nat × Nat → Nat × Nat × Nat) (lower upper : Nat × Nat × Nat) : Mask :=
  fun p =>
    let v := hsv p
    if lower.1 ≤ v.1 ∧ v.1 ≤ upper.1 ∧ lower.2.1 ≤ v.2.1 ∧ v.2.1 ≤ upper.2.1 ∧
       lower.2.2 ≤ v.2.2 ∧ v.2.2 ≤ upper.2.2 then 255 else 0

/-- `cv2.bitwise_and(src1, src2, mask=m)`: the per-pixel bitwise AND of the
two sources wherever the extra mask is nonzero, 0 wherever it is zero. -/
def bitwise_and_masked (src1 src2 m : Mask) : Mask :=
  fun p => if m p ≠ 0 then Nat.land (src1 p) (src2 p) else 0

/-- `motion_mask` of `process_frame` (`main.py` line 100):
`cv2.bitwise_and(mask, mask, mask=bg_subtractor.apply(frame))`, where `mask`
is the color gate and the background subtractor's output is the foreground
mask. -/
def motion_mask (colorMask fgMask : Mask) : Mask :=
  bitwise_and_masked colorMask colorMask fgMask

lemma land_self (n : Nat) : Nat.land n n = n := by
  show n &&& n = n
  apply Nat.eq_of_testBit_eq
  intro i
  simp [Nat.testBit_land]

/-- C7: the mask handed to `cv2.findContours` is the pointwise logical AND of
the color-gate mask and the motion-model foreground mask — a pixel is
foreground in the combined mask iff it is foreground in both. -/
theorem combined_mask_is_and (hsv : Nat × Nat → Nat × Nat × Nat)
    (lower upper : Nat × Nat × Nat) (fgMask : Mask) (p : Nat × Nat) :
    motion_mask (inRange hsv lower upper) fgMask p ≠ 0 ↔
      (inRange hsv lower upper p ≠ 0 ∧ fgMask p ≠ 0) := by
  unfold motion_mask bitwise_and_masked
  by_cases hfg : fgMask p = 0
  · simp [hfg]
  · simp [hfg, land_self]

/-- C9: the novelty decision reads only the timestamp and the top-left corner
of each history record: two histories that agree record-by-record on
`(timestamp, x, y)` yield the same `is_new_object` result, whatever their
stored widths and heights. -/
theorem width_height_noninterference (x y t hd : Int) :
    ∀ h1 h2 : List DetectionRecord,
      h1.map (fun r => (r.timestamp, r.x, r.y)) =
        h2.map (fun r => (r.timestamp, r.x, r.y)) →
      is_new_object x y t h1 hd = is_new_object x y t h2 hd := by
  intro h1
  induction h1 with
  | nil =>
      intro h2 hsame
      cases h2 with
      | nil => rfl
      | cons s rest2 => exact absurd hsame (by simp)
  | cons r rest ih =>
      intro h2 hsame
      cases h2 with
      | nil => exact absurd hsame (by simp)
      | cons s rest2 =>
          rw [List.map_cons, List.map_cons] at hsame
          have hhead := List.head_eq_of_cons_eq hsame
          have htail := List.tail_eq_of_cons_eq hsame
          have hts : r.timestamp = s.timestamp := congrArg Prod.fst hhead
          have hx : r.x = s.x := congrArg (fun q => q.2.1) hhead
          have hy : r.y = s.y := congrArg (fun q => q.2.2) hhead
          rw [is_new_object, is_new_object, hts, hx, hy, ih rest2 htail]

/-- Witness for C9: two singleton histories that differ only in the stored
box dimensions produce the same novelty verdict. -/
theorem width_height_noninterference_witness :
    is_new_object 0 0 10 [(⟨0, 3, 4, 1, 1⟩ : Scan.DetectionRecord)] 300 =
      is_new_object 0 0 10 [(⟨0, 3, 4, 99, 77⟩ : Scan.DetectionRecord)] 300 :=
  width_height_noninterference 0 0 10 300
    [(⟨0, 3, 4, 1, 1⟩ : Scan.DetectionRecord)]
    [(⟨0, 3, 4, 99, 77⟩ : Scan.DetectionRecord)] rfl

/-- A detection as reported by `process_frame` and consumed by the loop in
`main`: the tuple `(x, y, w, h)`. -/
abbrev Box := Int × Int × Int × Int

/-- The per-detection reporting loop of `main` (`main.py` lines 184-194):
for each new object append a row to `emergence_data`, then call
`save_photo_to_drive`; the upload either succeeds or raises, and `main` has no
handler, so a raised exception stops the loop and propagates.  Returns the
rows accumulated so far and either `ok` or the propagated error. -/
def report_loop (sink : Box → Except Unit Unit) :
    List Box → List Box → List Box × Except Unit Unit
  | log, [] => (log, Except.ok ())
  | log, b :: rest =>
      match sink b with
      | Except.error e => (log ++ [b], Except.error e)
      | Except.ok _ => report_loop sink (log ++ [b]) rest

/-- One iteration of `main`'s while loop, restricted to detection state
(`main.py` lines 182-194): `process_frame` updates `object_history` and
returns `new_objects`; the reporting loop then runs with an unhandled,
possibly failing photo sink.  Returns the history after the tick, the
`emergence_data` rows, and the tick's outcome. -/
def main_tick (sink : Box → Except Unit Unit) (contours : List (Contour × Int))
    (object_history : List DetectionRecord) (history_duration : Int)
    (log : List Box) :
    List DetectionRecord × List Box × Except Unit Unit :=
  let res := processContours contours object_history history_duration
  let rep := report_loop sink log res.1
  (res.2, rep.1, rep.2)

/-- C8 fails on the code: `main` and `save_photo_to_drive` contain no
exception handler, so a failing photo upload propagates out of the detection
loop (third component `error`), ending the run — even though the detection
history itself is the same as under a succeeding sink (first component
agrees). -/
theorem sink_failure_escapes :
    (main_tick (fun _ => Except.error ()) [((⟨30, 10, 10, 5, 5⟩ : Contour), 0)]
        [] 300 []).2.2 = Except.error () ∧
    (main_tick (fun _ => Except.error ()) [((⟨30, 10, 10, 5, 5⟩ : Contour), 0)]
        [] 300 []).1 =
      (main_tick (fun _ => Except.ok ()) [((⟨30, 10, 10, 5, 5⟩ : Contour), 0)]
        [] 300 []).1 := by
  constructor <;> rfl

end Scan
